import Mathlib

/-!
Verification of the ship-sail-mail email ingestion and routing service.

This file gives a shallow embedding, in Lean 4, of the parts of the service
that the checked properties talk about:

* the operator handlers of `src/services/operator_handlers.py`
* the condition evaluator of `src/services/condition_evaluator.py`
  (instrumented with an explicit trace of the conditions whose field
  extractor was invoked, so that short-circuiting is observable)
* the action executor of `src/services/action_executor.py`
* the rule engine of `src/services/rule_engine.py`
* the transactional save of `src/services/email_database.py`
* the per-uid ingestion step of `src/services/email_sync.py`
* the forward-subject computation of `src/services/email_forwarder.py`

Python strings are modelled as Lean `String`, with character-level
primitives defined over `String.data` so that every definition evaluates
inside the kernel.  Python's `re` module is external to the repository and
is modelled by an explicit compile function passed as a parameter: a
malformed pattern is one on which that function returns `none`.
-/

namespace ShipSailMail

/-- Python truthiness-aware dynamic value, the value type of the canonical
email dict and of rule action configurations.  `PyValue.none` is Python's
`None`. -/
inductive PyValue where
  | str (s : String)
  | int (n : Int)
  | none
deriving DecidableEq, Repr

/-- Python truthiness: `None`, `""` and `0` are falsy, everything else is
truthy. -/
def PyValue.truthy : PyValue → Bool
  | .str s => !(s = "")
  | .int n => !(n = 0)
  | .none => false

/-- The canonical email dict (`parsed_email` in `email_sync.py`), modelled
as an insertion-ordered association list, matching Python dict semantics. -/
abbrev EmailData := List (String × PyValue)

/-- `d.get(k)` on a Python dict: `none` when the key is absent. -/
def EmailData.get (d : EmailData) (k : String) : Option PyValue :=
  (List.find? (fun p => p.1 = k) d).map (fun p => p.2)

/-- `d[k] = v` on a Python dict: update in place when the key exists,
append otherwise (Python dicts preserve insertion order). -/
def EmailData.set (d : EmailData) (k : String) (v : PyValue) : EmailData :=
  if List.any d (fun p => p.1 = k) then
    List.map (fun p => if p.1 = k then (k, v) else p) d
  else
    d ++ [(k, v)]

/-! ### Python string primitives

`str.lower`, `in`, `startswith` and `endswith`, defined over the character
list of the string.  `Char.toLower` agrees with Python's `str.lower` on the
ASCII range used by the rule data. -/

/-- Model of Python `str.lower()`. -/
def py_lower (s : String) : String :=
  String.mk (s.data.map Char.toLower)

/-- Model of Python `p.startswith(q)`: `q.data` is a prefix of `p.data`. -/
def py_startswith (s p : String) : Bool :=
  p.data.isPrefixOf s.data

/-- Model of Python `p.endswith(q)`. -/
def py_endswith (s p : String) : Bool :=
  p.data.reverse.isPrefixOf s.data.reverse

/-- `m` occurs as a contiguous infix of `s` (lists of characters). -/
def char_list_infix : List Char → List Char → Bool
  | m, [] => m.isEmpty
  | m, s@(_ :: t) => m.isPrefixOf s || char_list_infix m t

/-- Model of Python `m in s` on strings (substring containment). -/
def py_in (m s : String) : Bool :=
  char_list_infix m.data s.data

/-! ### Operator handlers (`operator_handlers.py`) -/

/-- Field of `rule_conditions` rows (`rule_models.FieldType`). -/
inductive FieldType where
  | sender | subject | body | header | attachment
deriving DecidableEq, Repr

/-- Condition operator (`rule_models.OperatorType`). -/
inductive OperatorType where
  | contains | not_contains | equals | not_equals
  | regex | not_regex | starts_with | ends_with
deriving DecidableEq, Repr

/-- `AND`/`OR` combination logic (`rule_models.GroupLogic`). -/
inductive GroupLogic where
  | AND | OR
deriving DecidableEq, Repr

/-- Model of Python's `re` module as used by the two regex handlers: given
a pattern and the case-sensitivity flag (which the handlers translate to
`re.IGNORECASE`), `re.compile` either fails (`none`, a malformed pattern)
or yields a total search predicate on the subject string. -/
def RegexModel : Type :=
  String → Bool → Option (String → Bool)

/-- `OperatorHandler._prepare_values`: fold both sides to lower case unless
the comparison is case sensitive. -/
def prepare_values (field_value match_value : String) (case_sensitive : Bool) :
    String × String :=
  if case_sensitive then (field_value, match_value)
  else (py_lower field_value, py_lower match_value)

/-- `RegexOperator.match`: empty pattern gives `false`; a pattern the
regex engine rejects gives `false`; otherwise search the field value. -/
def regex_operator_match (re : RegexModel)
    (field_value match_value : String) (case_sensitive : Bool) : Bool :=
  if match_value = "" then false
  else
    match re match_value case_sensitive with
    | Option.none => false
    | Option.some search => search field_value

/-- `NotRegexOperator.match`: empty pattern gives `true`; a pattern the
regex engine rejects gives `true`; otherwise the negated search. -/
def not_regex_operator_match (re : RegexModel)
    (field_value match_value : String) (case_sensitive : Bool) : Bool :=
  if match_value = "" then true
  else
    match re match_value case_sensitive with
    | Option.none => true
    | Option.some search => !(search field_value)

/-- `OperatorHandlerFactory.execute_operation`: dispatch to the handler of
the operator and run its `match`. -/
def execute_operation (re : RegexModel) (op : OperatorType)
    (field_value match_value : String) (case_sensitive : Bool) : Bool :=
  match op with
  | .contains =>
      let p := prepare_values field_value match_value case_sensitive
      py_in p.2 p.1
  | .not_contains =>
      let p := prepare_values field_value match_value case_sensitive
      !(py_in p.2 p.1)
  | .equals =>
      let p := prepare_values field_value match_value case_sensitive
      p.1 = p.2
  | .not_equals =>
      let p := prepare_values field_value match_value case_sensitive
      !(p.1 = p.2)
  | .starts_with =>
      let p := prepare_values field_value match_value case_sensitive
      py_startswith p.1 p.2
  | .ends_with =>
      let p := prepare_values field_value match_value case_sensitive
      py_endswith p.1 p.2
  | .regex => regex_operator_match re field_value match_value case_sensitive
  | .not_regex => not_regex_operator_match re field_value match_value case_sensitive

/-! ### Forward subject (`email_forwarder.py`, `_send_forward_email`) -/

/-- The outbound subject of a forwarded message: `original_email.subject or
''`, prefixed with `"Fwd: "` unless it already starts with `"Fwd:"` or
`"FW:"` (case-sensitive checks, exactly as in the source). -/
def forward_subject (subject : Option String) : String :=
  let original_subject := subject.getD ""
  if !(py_startswith original_subject "Fwd:") && !(py_startswith original_subject "FW:") then
    "Fwd: " ++ original_subject
  else
    original_subject

lemma py_startswith_fwd_append (s : String) :
    py_startswith ("Fwd: " ++ s) "Fwd:" = true := by
  show List.isPrefixOf "Fwd:".data ("Fwd: " ++ s).data = true
  rw [String.data_append]
  show List.isPrefixOf ['F', 'w', 'd', ':'] (['F', 'w', 'd', ':', ' '] ++ s.data) = true
  simp [List.isPrefixOf]

/-- C9: forward-subject prefixing is idempotent: the outbound subject is
the original prefixed with `"Fwd: "` unless the original already starts
(case-sensitively) with `"Fwd:"` or `"FW:"`, in which case it is left
unchanged; forwarding a second time never prepends another `"Fwd:"`. -/
theorem forward_subject_prefix_idempotent (s : String) :
    (py_startswith s "Fwd:" = false → py_startswith s "FW:" = false →
      forward_subject (some s) = "Fwd: " ++ s) ∧
    ((py_startswith s "Fwd:" = true ∨ py_startswith s "FW:" = true) →
      forward_subject (some s) = s) ∧
    forward_subject (some (forward_subject (some s))) = forward_subject (some s) := by
  refine ⟨?_, ?_, ?_⟩
  · intro h1 h2
    simp [forward_subject, h1, h2]
  · intro h
    rcases h with h | h <;> simp [forward_subject, h]
  · by_cases h1 : py_startswith s "Fwd:" = true
    · simp [forward_subject, h1]
    · by_cases h2 : py_startswith s "FW:" = true
      · simp [forward_subject, h1, h2]
      · have hs : forward_subject (some s) = "Fwd: " ++ s := by
          simp [forward_subject, eq_false_of_ne_true h1, eq_false_of_ne_true h2]
        rw [hs]
        simp [forward_subject, py_startswith_fwd_append]

/-- C9 witness: concrete instances of the three parts at subject
`"Hello"`. -/
theorem forward_subject_prefix_idempotent_witness :
    forward_subject (some "Hello") = "Fwd: Hello" ∧
    forward_subject (some "Fwd: Hello") = "Fwd: Hello" := by
  have h := forward_subject_prefix_idempotent "Hello"
  refine ⟨h.1 (by decide) (by decide), ?_⟩
  have h2 := (forward_subject_prefix_idempotent "Fwd: Hello").2.1
  exact h2 (Or.inl (by decide))

/-- C7: for every field value and every pattern that the regex engine
rejects (a malformed pattern, `re.compile` fails), the `regex` operator
evaluates to `false` and the `not_regex` operator evaluates to `true`;
moreover `not_regex` is exactly the negation of `regex` for every pattern
the engine accepts (both operators are total functions, so no exception
can escape condition evaluation). -/
theorem regex_malformed_safety (re : RegexModel)
    (field_value match_value : String) (case_sensitive : Bool) :
    (re match_value case_sensitive = Option.none →
      regex_operator_match re field_value match_value case_sensitive = false ∧
      not_regex_operator_match re field_value match_value case_sensitive = true) ∧
    ((re match_value case_sensitive).isSome →
      not_regex_operator_match re field_value match_value case_sensitive =
        !(regex_operator_match re field_value match_value case_sensitive)) := by
  constructor
  · intro h
    constructor
    · by_cases he : match_value = "" <;>
        simp [regex_operator_match, he, h]
    · by_cases he : match_value = "" <;>
        simp [not_regex_operator_match, he, h]
  · intro h
    rcases Option.isSome_iff_exists.mp h with ⟨search, hsearch⟩
    by_cases he : match_value = "" <;>
      simp [regex_operator_match, not_regex_operator_match, he, hsearch]

/-- C7 witness: with a regex engine that rejects the pattern `"["`, the
`regex` operator yields `false` and `not_regex` yields `true` on a
concrete field value; with an engine accepting a pattern, `not_regex`
negates `regex`. -/
theorem regex_malformed_safety_witness :
    regex_operator_match (fun _ _ => Option.none) "subject line" "[" false = false ∧
    not_regex_operator_match (fun _ _ => Option.none) "subject line" "[" false = true ∧
    not_regex_operator_match (fun _ _ => Option.some (fun _ => true)) "x" "a" false =
      !(regex_operator_match (fun _ _ => Option.some (fun _ => true)) "x" "a" false) := by
  have h1 := (regex_malformed_safety (fun _ _ => Option.none) "subject line" "[" false).1 rfl
  have h2 := (regex_malformed_safety (fun _ _ => Option.some (fun _ => true)) "x" "a" false).2
  exact ⟨h1.1, h1.2, h2 rfl⟩

/-! ### Rule data model (`rule_models.py`) -/

/-- Action kind (`rule_models.ActionType`). -/
inductive ActionType where
  | skip | set_field
deriving DecidableEq, Repr

/-- A row of `rule_conditions` (`rule_models.RuleCondition`). -/
structure RuleCondition where
  id : Nat
  field_type : FieldType
  operator : OperatorType
  match_value : String
  case_sensitive : Bool
deriving DecidableEq, Repr

/-- A row of `rule_condition_groups` with its loaded conditions
(`rule_models.ConditionGroup`). -/
structure ConditionGroup where
  id : Nat
  group_logic : GroupLogic
  conditions : List RuleCondition
deriving DecidableEq, Repr

/-- A row of `rule_actions` (`rule_models.RuleAction`); `action_config` is
the decoded JSON dict. -/
structure RuleAction where
  id : Nat
  action_type : ActionType
  action_config : Option (List (String × PyValue))
deriving DecidableEq, Repr

/-- A rule with its loaded groups and actions (`rule_models.EmailRule`). -/
structure EmailRule where
  id : Nat
  name : String
  priority : Int
  stop_on_match : Bool
  global_group_logic : GroupLogic
  condition_groups : List ConditionGroup
  actions : List RuleAction
deriving DecidableEq, Repr

/-! ### Condition evaluator (`condition_evaluator.py`)

The evaluator is parametrised by the field-extractor registry
(`FieldExtractorFactory.extract_field`; extractors are pluggable and the
registered ones return a string, with `""` on every failure path).  Each
evaluation function returns, besides its boolean result, the trace of the
condition ids whose field extractor was invoked, in invocation order —
this makes the short-circuiting of the source loops observable. -/

/-- The field-extractor registry: `extract_field(field_type, email_data)`. -/
def FieldExtractor : Type :=
  FieldType → EmailData → String

/-- `ConditionEvaluator.evaluate_condition`: extract the field value, then
run the operator handler.  The trace records that this condition's
extractor ran. -/
def evaluate_condition (ext : FieldExtractor) (re : RegexModel)
    (c : RuleCondition) (d : EmailData) : Bool × List Nat :=
  (execute_operation re c.operator (ext c.field_type d) c.match_value c.case_sensitive,
    [c.id])

/-- `ConditionEvaluator._evaluate_and_conditions`: short-circuit AND over
the conditions, stopping at the first `false`. -/
def evaluate_and_conditions (ext : FieldExtractor) (re : RegexModel) :
    List RuleCondition → EmailData → Bool × List Nat
  | [], _ => (true, [])
  | c :: rest, d =>
    let r := evaluate_condition ext re c d
    if r.1 then
      let r2 := evaluate_and_conditions ext re rest d
      (r2.1, r.2 ++ r2.2)
    else
      (false, r.2)

/-- `ConditionEvaluator._evaluate_or_conditions`: short-circuit OR over
the conditions, stopping at the first `true`. -/
def evaluate_or_conditions (ext : FieldExtractor) (re : RegexModel) :
    List RuleCondition → EmailData → Bool × List Nat
  | [], _ => (false, [])
  | c :: rest, d =>
    let r := evaluate_condition ext re c d
    if r.1 then
      (true, r.2)
    else
      let r2 := evaluate_or_conditions ext re rest d
      (r2.1, r.2 ++ r2.2)

/-- `ConditionEvaluator.evaluate_group`: an empty group matches; otherwise
combine the conditions by the group's logic. -/
def evaluate_group (ext : FieldExtractor) (re : RegexModel)
    (g : ConditionGroup) (d : EmailData) : Bool × List Nat :=
  if g.conditions.isEmpty then (true, [])
  else
    match g.group_logic with
    | .AND => evaluate_and_conditions ext re g.conditions d
    | .OR => evaluate_or_conditions ext re g.conditions d

/-- The group loop of `ConditionEvaluator.evaluate_rule`: groups are
evaluated in order, the loop breaks at the first `false` group under
global AND and at the first `true` group under global OR, and the result
is `all` / `any` of the collected group results. -/
def evaluate_rule_groups (ext : FieldExtractor) (re : RegexModel)
    (logic : GroupLogic) : List ConditionGroup → EmailData → Bool × List Nat
  | [], _ => (match logic with | .AND => true | .OR => false, [])
  | g :: rest, d =>
    let r := evaluate_group ext re g d
    match logic with
    | .AND =>
      if r.1 then
        let r2 := evaluate_rule_groups ext re .AND rest d
        (r2.1, r.2 ++ r2.2)
      else
        (false, r.2)
    | .OR =>
      if r.1 then
        (true, r.2)
      else
        let r2 := evaluate_rule_groups ext re .OR rest d
        (r2.1, r.2 ++ r2.2)

/-- `ConditionEvaluator.evaluate_rule`: a rule with no condition groups
matches; otherwise run the group loop under the rule's global logic. -/
def evaluate_rule (ext : FieldExtractor) (re : RegexModel)
    (rule : EmailRule) (d : EmailData) : Bool × List Nat :=
  if rule.condition_groups.isEmpty then (true, [])
  else evaluate_rule_groups ext re rule.global_group_logic rule.condition_groups d

lemma evaluate_condition_trace (ext : FieldExtractor) (re : RegexModel)
    (c : RuleCondition) (d : EmailData) :
    (evaluate_condition ext re c d).2 = [c.id] := rfl

lemma evaluate_and_conditions_short_circuit (ext : FieldExtractor) (re : RegexModel)
    (d : EmailData) (c : RuleCondition) (post : List RuleCondition)
    (hc : (evaluate_condition ext re c d).1 = false) :
    ∀ pre : List RuleCondition,
      (∀ c' ∈ pre, (evaluate_condition ext re c' d).1 = true) →
      evaluate_and_conditions ext re (pre ++ c :: post) d =
        (false, pre.map (fun x => x.id) ++ [c.id]) := by
  intro pre
  induction pre with
  | nil =>
    intro _
    simp only [List.nil_append, evaluate_and_conditions, hc, Bool.false_eq_true, if_false,
      evaluate_condition_trace, List.map_nil]
  | cons p ps ih =>
    intro hpre
    have hp : (evaluate_condition ext re p d).1 = true :=
      hpre p (List.mem_cons_self p ps)
    have hps : ∀ c' ∈ ps, (evaluate_condition ext re c' d).1 = true := by
      intro c' hc'
      exact hpre c' (List.mem_cons_of_mem p hc')
    simp only [List.cons_append, evaluate_and_conditions, hp, if_true, List.append_eq]
    rw [ih hps]
    simp [evaluate_condition_trace]

lemma evaluate_or_conditions_short_circuit (ext : FieldExtractor) (re : RegexModel)
    (d : EmailData) (c : RuleCondition) (post : List RuleCondition)
    (hc : (evaluate_condition ext re c d).1 = true) :
    ∀ pre : List RuleCondition,
      (∀ c' ∈ pre, (evaluate_condition ext re c' d).1 = false) →
      evaluate_or_conditions ext re (pre ++ c :: post) d =
        (true, pre.map (fun x => x.id) ++ [c.id]) := by
  intro pre
  induction pre with
  | nil =>
    intro _
    simp only [List.nil_append, evaluate_or_conditions, hc, if_true,
      evaluate_condition_trace, List.map_nil]
  | cons p ps ih =>
    intro hpre
    have hp : (evaluate_condition ext re p d).1 = false :=
      hpre p (List.mem_cons_self p ps)
    have hps : ∀ c' ∈ ps, (evaluate_condition ext re c' d).1 = false := by
      intro c' hc'
      exact hpre c' (List.mem_cons_of_mem p hc')
    simp only [List.cons_append, evaluate_or_conditions, hp, Bool.false_eq_true, if_false,
      List.append_eq]
    rw [ih hps]
    simp [evaluate_condition_trace]

lemma evaluate_rule_groups_and_short_circuit (ext : FieldExtractor) (re : RegexModel)
    (d : EmailData) (g : ConditionGroup) (post : List ConditionGroup)
    (hg : (evaluate_group ext re g d).1 = false) :
    ∀ pre : List ConditionGroup,
      (∀ g' ∈ pre, (evaluate_group ext re g' d).1 = true) →
      evaluate_rule_groups ext re .AND (pre ++ g :: post) d =
        (false, (pre.map (fun x => (evaluate_group ext re x d).2)).flatten ++
          (evaluate_group ext re g d).2) := by
  intro pre
  induction pre with
  | nil =>
    intro _
    simp only [List.nil_append, evaluate_rule_groups, hg, Bool.false_eq_true, if_false,
      List.map_nil, List.flatten_nil]
  | cons p ps ih =>
    intro hpre
    have hp : (evaluate_group ext re p d).1 = true :=
      hpre p (List.mem_cons_self p ps)
    have hps : ∀ g' ∈ ps, (evaluate_group ext re g' d).1 = true := by
      intro g' hg'
      exact hpre g' (List.mem_cons_of_mem p hg')
    simp only [List.cons_append, evaluate_rule_groups, hp, if_true, List.append_eq]
    rw [ih hps]
    simp

lemma evaluate_rule_groups_or_short_circuit (ext : FieldExtractor) (re : RegexModel)
    (d : EmailData) (g : ConditionGroup) (post : List ConditionGroup)
    (hg : (evaluate_group ext re g d).1 = true) :
    ∀ pre : List ConditionGroup,
      (∀ g' ∈ pre, (evaluate_group ext re g' d).1 = false) →
      evaluate_rule_groups ext re .OR (pre ++ g :: post) d =
        (true, (pre.map (fun x => (evaluate_group ext re x d).2)).flatten ++
          (evaluate_group ext re g d).2) := by
  intro pre
  induction pre with
  | nil =>
    intro _
    simp only [List.nil_append, evaluate_rule_groups, hg, if_true,
      List.map_nil, List.flatten_nil]
  | cons p ps ih =>
    intro hpre
    have hp : (evaluate_group ext re p d).1 = false :=
      hpre p (List.mem_cons_self p ps)
    have hps : ∀ g' ∈ ps, (evaluate_group ext re g' d).1 = false := by
      intro g' hg'
      exact hpre g' (List.mem_cons_of_mem p hg')
    simp only [List.cons_append, evaluate_rule_groups, hp, Bool.false_eq_true, if_false,
      List.append_eq]
    rw [ih hps]
    simp

lemma evaluate_and_conditions_eq_all (ext : FieldExtractor) (re : RegexModel)
    (d : EmailData) :
    ∀ conds : List RuleCondition,
      (evaluate_and_conditions ext re conds d).1 =
        conds.all (fun c => (evaluate_condition ext re c d).1) := by
  intro conds
  induction conds with
  | nil => simp [evaluate_and_conditions]
  | cons c rest ih =>
    by_cases h : (evaluate_condition ext re c d).1 = true <;>
      simp [evaluate_and_conditions, h, ih]

lemma evaluate_or_conditions_eq_any (ext : FieldExtractor) (re : RegexModel)
    (d : EmailData) :
    ∀ conds : List RuleCondition,
      (evaluate_or_conditions ext re conds d).1 =
        conds.any (fun c => (evaluate_condition ext re c d).1) := by
  intro conds
  induction conds with
  | nil => simp [evaluate_or_conditions]
  | cons c rest ih =>
    by_cases h : (evaluate_condition ext re c d).1 = true <;>
      simp [evaluate_or_conditions, h, ih]

lemma evaluate_rule_groups_and_eq_all (ext : FieldExtractor) (re : RegexModel)
    (d : EmailData) :
    ∀ groups : List ConditionGroup,
      (evaluate_rule_groups ext re .AND groups d).1 =
        groups.all (fun g => (evaluate_group ext re g d).1) := by
  intro groups
  induction groups with
  | nil => simp [evaluate_rule_groups]
  | cons g rest ih =>
    by_cases h : (evaluate_group ext re g d).1 = true <;>
      simp [evaluate_rule_groups, h, ih]

lemma evaluate_rule_groups_or_eq_any (ext : FieldExtractor) (re : RegexModel)
    (d : EmailData) :
    ∀ groups : List ConditionGroup,
      (evaluate_rule_groups ext re .OR groups d).1 =
        groups.any (fun g => (evaluate_group ext re g d).1) := by
  intro groups
  induction groups with
  | nil => simp [evaluate_rule_groups]
  | cons g rest ih =>
    by_cases h : (evaluate_group ext re g d).1 = true <;>
      simp [evaluate_rule_groups, h, ih]

/-- C8: condition evaluation short-circuits at both levels.  In an AND
group the conditions after the first false one are never evaluated (their
extractors do not appear in the trace, which is exactly the earlier
conditions followed by the failing one) and the group is false; dually for
OR groups at the first true condition.  At the rule level, groups after
the first false group under global AND (first true group under global OR)
are not evaluated, and the overall result equals the boolean combination
(`all` / `any`) of the evaluated groups. -/
theorem condition_evaluation_short_circuits (ext : FieldExtractor) (re : RegexModel)
    (d : EmailData) :
    (∀ (pre : List RuleCondition) (c : RuleCondition) (post : List RuleCondition),
      (∀ c' ∈ pre, (evaluate_condition ext re c' d).1 = true) →
      (evaluate_condition ext re c d).1 = false →
      evaluate_and_conditions ext re (pre ++ c :: post) d =
        (false, pre.map (fun x => x.id) ++ [c.id])) ∧
    (∀ (pre : List RuleCondition) (c : RuleCondition) (post : List RuleCondition),
      (∀ c' ∈ pre, (evaluate_condition ext re c' d).1 = false) →
      (evaluate_condition ext re c d).1 = true →
      evaluate_or_conditions ext re (pre ++ c :: post) d =
        (true, pre.map (fun x => x.id) ++ [c.id])) ∧
    (∀ (pre : List ConditionGroup) (g : ConditionGroup) (post : List ConditionGroup),
      (∀ g' ∈ pre, (evaluate_group ext re g' d).1 = true) →
      (evaluate_group ext re g d).1 = false →
      evaluate_rule_groups ext re .AND (pre ++ g :: post) d =
        evaluate_rule_groups ext re .AND (pre ++ [g]) d ∧
      (evaluate_rule_groups ext re .AND (pre ++ g :: post) d).1 = false) ∧
    (∀ (pre : List ConditionGroup) (g : ConditionGroup) (post : List ConditionGroup),
      (∀ g' ∈ pre, (evaluate_group ext re g' d).1 = false) →
      (evaluate_group ext re g d).1 = true →
      evaluate_rule_groups ext re .OR (pre ++ g :: post) d =
        evaluate_rule_groups ext re .OR (pre ++ [g]) d ∧
      (evaluate_rule_groups ext re .OR (pre ++ g :: post) d).1 = true) ∧
    (∀ groups : List ConditionGroup,
      (evaluate_rule_groups ext re .AND groups d).1 =
        groups.all (fun g => (evaluate_group ext re g d).1) ∧
      (evaluate_rule_groups ext re .OR groups d).1 =
        groups.any (fun g => (evaluate_group ext re g d).1)) := by
  refine ⟨?_, ?_, ?_, ?_, ?_⟩
  · intro pre c post hpre hc
    exact evaluate_and_conditions_short_circuit ext re d c post hc pre hpre
  · intro pre c post hpre hc
    exact evaluate_or_conditions_short_circuit ext re d c post hc pre hpre
  · intro pre g post hpre hg
    have h1 := evaluate_rule_groups_and_short_circuit ext re d g post hg pre hpre
    have h2 := evaluate_rule_groups_and_short_circuit ext re d g ([]) hg pre hpre
    refine ⟨h1.trans h2.symm, ?_⟩
    rw [h1]
  · intro pre g post hpre hg
    have h1 := evaluate_rule_groups_or_short_circuit ext re d g post hg pre hpre
    have h2 := evaluate_rule_groups_or_short_circuit ext re d g ([]) hg pre hpre
    refine ⟨h1.trans h2.symm, ?_⟩
    rw [h1]
  · intro groups
    exact ⟨evaluate_rule_groups_and_eq_all ext re d groups,
      evaluate_rule_groups_or_eq_any ext re d groups⟩

/-- A concrete extractor used by witnesses: a fixed sender and subject. -/
def sample_extract : FieldExtractor := fun ft _ =>
  match ft with
  | .sender => "alice@example.com"
  | .subject => "Greetings"
  | _ => ""

/-- A regex engine that rejects every pattern, used by witnesses where no
regex condition occurs. -/
def rejecting_re : RegexModel := fun _ _ => Option.none

/-- C8 witness: with three conditions under AND where the first is true
and the second false, evaluation stops after the second condition — the
third condition's extractor is never invoked. -/
theorem condition_evaluation_short_circuits_witness :
    evaluate_and_conditions sample_extract rejecting_re
      [⟨1, .sender, .contains, "alice", false⟩,
       ⟨2, .subject, .equals, "nope", false⟩,
       ⟨3, .subject, .contains, "G", false⟩] [] =
      (false, [1, 2]) := by
  have h := (condition_evaluation_short_circuits sample_extract rejecting_re []).1
    [⟨1, .sender, .contains, "alice", false⟩]
    ⟨2, .subject, .equals, "nope", false⟩
    [⟨3, .subject, .contains, "G", false⟩]
    (by decide) (by decide)
  exact h

/-! ### Action executor (`action_executor.py`) -/

/-- The result dict a handler's `execute` returns, restricted to the keys
the callers read: `success`, `should_skip` (read through
`result.get('should_skip', False)`, so absent means `false`), and
`message`. -/
structure ActionResult where
  success : Bool
  should_skip : Bool
  message : String
deriving DecidableEq, Repr

/-- `SetFieldActionHandler._parse_set_field_action`: require a non-empty
config dict, a truthy `field_name` equal to `"dispatcher_id"`, and return
the configured `field_value` (Python `None` when the key is absent). -/
def parse_set_field_action (a : RuleAction) : Except String PyValue :=
  match a.action_config with
  | Option.none => Except.error "set_field action missing action_config"
  | Option.some cfg =>
    if cfg.isEmpty then Except.error "set_field action missing action_config"
    else
      match EmailData.get cfg "field_name" with
      | Option.none => Except.error "action_config missing field_name"
      | Option.some fn =>
        if fn.truthy = false then Except.error "action_config missing field_name"
        else if fn ≠ PyValue.str "dispatcher_id" then
          Except.error "only dispatcher_id may be set"
        else
          Except.ok ((EmailData.get cfg "field_value").getD PyValue.none)

/-- `ActionExecutor.execute_action`: dispatch to the handler.  The skip
handler always succeeds and sets the skip flag; the set-field handler
validates its config and mutates the email dict in place. -/
def execute_action (a : RuleAction) (d : EmailData) : ActionResult × EmailData :=
  match a.action_type with
  | .skip => (⟨true, true, "email skipped by rule action"⟩, d)
  | .set_field =>
    match parse_set_field_action a with
    | Except.error e => (⟨false, false, e⟩, d)
    | Except.ok v => (⟨true, false, "field set"⟩, EmailData.set d "dispatcher_id" v)

/-- The error messages a batch collects from one action result:
`if not success and message`. -/
def batch_errors_of (r : ActionResult) : List String :=
  if !r.success && !(r.message = "") then [r.message] else []

/-- The value `ActionExecutor.execute_actions_batch` computes: skip flag,
overall success (`failed_actions == 0`), the ids of the actions that were
executed in order, the final email dict, and the collected error
messages. -/
structure BatchResult where
  should_skip : Bool
  success : Bool
  executed : List Nat
  data : EmailData
  errors : List String
deriving DecidableEq, Repr

/-- `ActionExecutor.execute_actions_batch`: run the actions in order,
breaking out of the loop as soon as an action's result carries
`should_skip`. -/
def execute_actions_batch : List RuleAction → EmailData → BatchResult
  | [], d => ⟨false, true, [], d, []⟩
  | a :: rest, d =>
    let r := (execute_action a d).1
    let d' := (execute_action a d).2
    if r.should_skip then
      ⟨true, r.success, [a.id], d', batch_errors_of r⟩
    else
      let b := execute_actions_batch rest d'
      ⟨b.should_skip, r.success && b.success, a.id :: b.executed, b.data,
        batch_errors_of r ++ b.errors⟩

lemma execute_actions_batch_no_skip_executed (d : EmailData) :
    ∀ as : List RuleAction, (execute_actions_batch as d).should_skip = false →
      (execute_actions_batch as d).executed = as.map (fun a => a.id) := by
  intro as
  induction as generalizing d with
  | nil => intro _; rfl
  | cons a rest ih =>
    intro h
    by_cases hs : (execute_action a d).1.should_skip = true
    · exfalso
      simp [execute_actions_batch, hs] at h
    · have hs' : (execute_action a d).1.should_skip = false := eq_false_of_ne_true hs
      simp only [execute_actions_batch, hs', Bool.false_eq_true, if_false] at h ⊢
      rw [ih (execute_action a d).2 h]
      simp

/-- C10: within a single rule's action list, execution halts at the first
action whose result sets the skip flag.  If the actions before `a` run
without any skip and `a` then produces a skip on the dict they left
behind, the batch over `pre ++ a :: post` equals the batch over
`pre ++ [a]`: the actions in `post` are not executed, contribute no field
modification to the email dict, and the batch result carries
`should_skip = true` with exactly `pre`'s ids followed by `a.id` as the
executed actions. -/
theorem actions_halt_at_first_skip (d : EmailData) (pre : List RuleAction)
    (a : RuleAction) (post : List RuleAction)
    (hpre : (execute_actions_batch pre d).should_skip = false)
    (ha : (execute_action a (execute_actions_batch pre d).data).1.should_skip = true) :
    execute_actions_batch (pre ++ a :: post) d = execute_actions_batch (pre ++ [a]) d ∧
    (execute_actions_batch (pre ++ a :: post) d).should_skip = true ∧
    (execute_actions_batch (pre ++ a :: post) d).executed =
      pre.map (fun x => x.id) ++ [a.id] ∧
    (execute_actions_batch (pre ++ a :: post) d).data =
      (execute_action a (execute_actions_batch pre d).data).2 := by
  induction pre generalizing d with
  | nil =>
    have ha0 : (execute_action a d).1.should_skip = true := by
      simpa [execute_actions_batch] using ha
    refine ⟨?_, ?_, ?_, ?_⟩ <;>
      simp [execute_actions_batch, ha0]
  | cons p ps ih =>
    by_cases hs : (execute_action p d).1.should_skip = true
    · exfalso
      simp [execute_actions_batch, hs] at hpre
    · have hs' : (execute_action p d).1.should_skip = false := eq_false_of_ne_true hs
      have hpre' : (execute_actions_batch ps (execute_action p d).2).should_skip = false := by
        simp only [execute_actions_batch, hs', Bool.false_eq_true, if_false] at hpre
        exact hpre
      have ha' : (execute_action a
          (execute_actions_batch ps (execute_action p d).2).data).1.should_skip = true := by
        simp only [execute_actions_batch, hs', Bool.false_eq_true, if_false] at ha
        exact ha
      have hrec := ih (execute_action p d).2 hpre' ha'
      refine ⟨?_, ?_, ?_, ?_⟩
      · simp only [List.cons_append, execute_actions_batch, hs', Bool.false_eq_true, if_false,
          List.append_eq]
        rw [hrec.1]
      · simp only [List.cons_append, execute_actions_batch, hs', Bool.false_eq_true, if_false,
          List.append_eq]
        exact hrec.2.1
      · simp only [List.cons_append, execute_actions_batch, hs', Bool.false_eq_true, if_false,
          List.append_eq]
        rw [hrec.2.2.1]
        simp
      · simp only [List.cons_append, execute_actions_batch, hs', Bool.false_eq_true, if_false,
          List.append_eq]
        exact hrec.2.2.2

/-- C10 witness: a set-field action, then a skip action, then another
set-field action writing `99`.  The batch stops at the skip action: the
final dict holds `dispatcher_id = 7`, not `99`, only actions `1` and `2`
ran, and the batch reports `should_skip`. -/
theorem actions_halt_at_first_skip_witness :
    execute_actions_batch
      [⟨1, .set_field, Option.some [("field_name", PyValue.str "dispatcher_id"),
          ("field_value", PyValue.int 7)]⟩,
       ⟨2, .skip, Option.none⟩,
       ⟨3, .set_field, Option.some [("field_name", PyValue.str "dispatcher_id"),
          ("field_value", PyValue.int 99)]⟩]
      [("message_id", PyValue.str "m1")] =
      ⟨true, true, [1, 2],
        [("message_id", PyValue.str "m1"), ("dispatcher_id", PyValue.int 7)], []⟩ := by
  have h := actions_halt_at_first_skip [("message_id", PyValue.str "m1")]
    [⟨1, .set_field, Option.some [("field_name", PyValue.str "dispatcher_id"),
        ("field_value", PyValue.int 7)]⟩]
    ⟨2, .skip, Option.none⟩
    [⟨3, .set_field, Option.some [("field_name", PyValue.str "dispatcher_id"),
        ("field_value", PyValue.int 99)]⟩]
    (by decide) (by decide)
  have h1 := h.1
  simp only [List.cons_append, List.nil_append] at h1
  rw [h1]
  decide

/-! ### Rule engine (`rule_engine.py`) -/

/-- The comparator realised by
`sorted(rules, key=lambda x: (x.priority, x.id), reverse=True)`:
`a` may stay before `b` exactly when `b`'s key `(priority, id)` is
lexicographically at most `a`'s, i.e. the list is ordered by the key pair
descending — the single `reverse=True` flips the `id` tie-break to
descending as well. -/
def rule_key_le (a b : EmailRule) : Bool :=
  b.priority < a.priority || (b.priority = a.priority && b.id ≤ a.id)

/-- Stable insertion into a list already sorted by `rule_key_le`. -/
def sorted_insert (a : EmailRule) : List EmailRule → List EmailRule
  | [] => [a]
  | b :: bs => if rule_key_le a b then a :: b :: bs else b :: sorted_insert a bs

/-- Model of Python's stable `sorted(rules, key=lambda x: (x.priority,
x.id), reverse=True)` in `RuleEngine.apply_rules`. -/
def sorted_rules : List EmailRule → List EmailRule
  | [] => []
  | a :: as => sorted_insert a (sorted_rules as)

/-- The slice of the engine's `RuleResult` that `apply_rules` fills in:
the cumulative skip flag, the matched rule names in match order, and the
collected error messages (`total_time` and the success bookkeeping are
timing/observability state with no bearing on the checked properties). -/
structure RuleResult where
  should_skip : Bool
  matched_rules : List String
  error_messages : List String
deriving DecidableEq, Repr

/-- `RuleResult.add_matched_rule`: append the name unless present. -/
def add_matched_rule (l : List String) (n : String) : List String :=
  if l.contains n then l else l ++ [n]

/-- `RuleEngine._execute_rule_actions`: an empty action list yields an
empty successful result without running the batch executor. -/
def execute_rule_actions (rule : EmailRule) (d : EmailData) : BatchResult :=
  if rule.actions.isEmpty then ⟨false, true, [], d, []⟩
  else execute_actions_batch rule.actions d

/-- The per-rule loop of `RuleEngine.apply_rules`: evaluate each rule in
the sorted order; on a match record the name, execute the actions and
merge their result; break after a matching rule when it has
`stop_on_match` or when the cumulative skip flag is set. -/
def apply_rules_loop (ext : FieldExtractor) (re : RegexModel) :
    List EmailRule → EmailData → RuleResult → RuleResult × EmailData
  | [], d, acc => (acc, d)
  | rule :: rest, d, acc =>
    if (evaluate_rule ext re rule d).1 then
      let b := execute_rule_actions rule d
      let acc' : RuleResult :=
        ⟨acc.should_skip || b.should_skip,
          add_matched_rule acc.matched_rules rule.name,
          acc.error_messages ++ b.errors⟩
      if rule.stop_on_match then (acc', b.data)
      else if acc'.should_skip then (acc', b.data)
      else apply_rules_loop ext re rest b.data acc'
    else
      apply_rules_loop ext re rest d acc

/-- `RuleEngine.apply_rules` on an already-loaded rule list: an empty list
short-circuits to the empty result; otherwise sort by
`(priority, id) reverse=True` and run the rule loop.  Returns the engine
result together with the (possibly mutated) canonical email dict. -/
def apply_rules (ext : FieldExtractor) (re : RegexModel)
    (rules : List EmailRule) (d : EmailData) : RuleResult × EmailData :=
  if rules.isEmpty then (⟨false, [], []⟩, d)
  else apply_rules_loop ext re (sorted_rules rules) d ⟨false, [], []⟩

/-- Two always-matching, action-free rules with equal priority `5` and ids
`1` and `2`, used to exhibit the evaluation order on a priority tie. -/
def rule_tie_id1 : EmailRule :=
  ⟨1, "RuleA", 5, false, .AND, [], []⟩

/-- Companion rule for the tie example, id `2`. -/
def rule_tie_id2 : EmailRule :=
  ⟨2, "RuleB", 5, false, .AND, [], []⟩

/-- C2: refuted on the code — on a priority tie the engine evaluates the
rule with the LARGER id first.  `get_all_active_rules` orders
`priority DESC, id ASC` in SQL, but `apply_rules` re-sorts with
`sorted(rules, key=lambda x: (x.priority, x.id), reverse=True)`, and
`reverse=True` applies to the whole key pair, so equal-priority rules are
ordered by descending id: with two active always-matching rules of
priority `5` and ids `1`, `2`, the engine's sorted order is `[id 2, id 1]`
and the matched-rule names are recorded as `["RuleB", "RuleA"]`. -/
theorem equal_priority_ties_evaluated_descending_id :
    sorted_rules [rule_tie_id1, rule_tie_id2] = [rule_tie_id2, rule_tie_id1] ∧
    (apply_rules sample_extract rejecting_re [rule_tie_id1, rule_tie_id2]
        [("message_id", PyValue.str "m1")]).1.matched_rules = ["RuleB", "RuleA"] := by
  constructor
  · decide
  · decide

/-- A rule matching every message (no condition groups) with priority `20`
and a `set_field dispatcher_id = 7` action. -/
def rule_set7 : EmailRule :=
  ⟨1, "R1", 20, false, .AND, [],
    [⟨1, .set_field, Option.some [("field_name", PyValue.str "dispatcher_id"),
        ("field_value", PyValue.int 7)]⟩]⟩

/-- A rule matching every message (no condition groups) with priority `10`
and a `set_field dispatcher_id = 9` action. -/
def rule_set9 : EmailRule :=
  ⟨2, "R2", 10, false, .AND, [],
    [⟨2, .set_field, Option.some [("field_name", PyValue.str "dispatcher_id"),
        ("field_value", PyValue.int 9)]⟩]⟩

/-- C3 counterexample: with R1 (priority 20, `set_field dispatcher_id=7`)
and R2 (priority 10, `set_field dispatcher_id=9`), both always matching
and neither with `stop_on_match`, the engine evaluates R1 first and R2
second, so R2's write lands last: the canonical dict that gets stored
carries `dispatcher_id = 9`, not `7`. -/
theorem set_field_precedence_counterexample :
    EmailData.get (apply_rules sample_extract rejecting_re [rule_set7, rule_set9]
        [("message_id", PyValue.str "m1")]).2 "dispatcher_id" ≠
      Option.some (PyValue.int 7) := by
  decide

/-- C3 amended: in the scenario of the claim the stored canonical dict has
`dispatcher_id = 9` — `field_modifications` are last-write-wins across the
matched rules in evaluation order, and evaluation runs from higher to
lower priority, so the LOWER-priority rule's value wins; both rules are
recorded as matched in priority order. -/
theorem set_field_last_write_wins :
    EmailData.get (apply_rules sample_extract rejecting_re [rule_set7, rule_set9]
        [("message_id", PyValue.str "m1")]).2 "dispatcher_id" =
      Option.some (PyValue.int 9) ∧
    (apply_rules sample_extract rejecting_re [rule_set7, rule_set9]
        [("message_id", PyValue.str "m1")]).1.matched_rules = ["R1", "R2"] := by
  constructor
  · decide
  · decide

/-! ### Repository save (`email_database.py`) -/

/-- An attachment model as passed to the repository; only the fields the
save logic reads or writes are kept (`email_id` is overwritten by the save,
and the remaining columns do not influence control flow). -/
structure AttachmentModel where
  email_id : Nat
  original_filename : String
deriving DecidableEq, Repr

/-- The relevant slice of the database: the `emails` table keyed by its
unique `message_id` column, the `attachments` table with its `email_id`
foreign key, and the auto-increment counters. -/
structure DBState where
  emails : List (Nat × String)
  attachments : List (Nat × AttachmentModel)
  next_email_id : Nat
  next_attachment_id : Nat
deriving DecidableEq, Repr

/-- The attachment-insert loop of `save_email_with_attachments`: each
attachment gets `email_id` set and is inserted, collecting `lastrowid`s. -/
def insert_attachments : DBState → Nat → List AttachmentModel → DBState × List Nat
  | db, _, [] => (db, [])
  | db, eid, att :: rest =>
    let row_id := db.next_attachment_id
    let db' : DBState :=
      ⟨db.emails, db.attachments ++ [(row_id, ⟨eid, att.original_filename⟩)],
        db.next_email_id, db.next_attachment_id + 1⟩
    let r := insert_attachments db' eid rest
    (r.1, row_id :: r.2)

/-- `EmailDatabaseService.save_email_with_attachments`: inside one
transaction, look the message up by `message_id`.  If a row exists and
already has at least one attachment, return its id with no inserts; if a
row exists with zero attachments, fall through to the attachment inserts;
otherwise insert the message and then the attachments. -/
def save_email_with_attachments (db : DBState) (message_id : String)
    (atts : List AttachmentModel) : DBState × Nat × List Nat :=
  match db.emails.find? (fun p => p.2 = message_id) with
  | Option.some row =>
    let email_id := row.1
    let existing_attach_count :=
      (db.attachments.filter (fun p => p.2.email_id = email_id)).length
    if existing_attach_count > 0 then (db, email_id, [])
    else
      let r := insert_attachments db email_id atts
      (r.1, email_id, r.2)
  | Option.none =>
    let email_id := db.next_email_id
    let db' : DBState :=
      ⟨db.emails ++ [(email_id, message_id)], db.attachments,
        db.next_email_id + 1, db.next_attachment_id⟩
    let r := insert_attachments db' email_id atts
    (r.1, email_id, r.2)

lemma insert_attachments_tables :
    ∀ (atts : List AttachmentModel) (db : DBState) (eid : Nat),
      (insert_attachments db eid atts).1.emails = db.emails ∧
      (insert_attachments db eid atts).1.attachments.length =
        db.attachments.length + atts.length := by
  intro atts
  induction atts with
  | nil => intro db eid; exact ⟨rfl, rfl⟩
  | cons att rest ih =>
    intro db eid
    have h := ih ⟨db.emails, db.attachments ++ [(db.next_attachment_id, ⟨eid, att.original_filename⟩)],
      db.next_email_id, db.next_attachment_id + 1⟩ eid
    constructor
    · simpa [insert_attachments] using h.1
    · have h2 := h.2
      simp only [insert_attachments]
      simp only [List.length_append, List.length_cons, List.length_nil] at h2 ⊢
      omega

/-- C5 counterexample: the claim says the save inserts no attachment rows
for an existing message even when the existing row has zero attachments.
With an existing `"m1"` row that has no attachments and one new
attachment, the save DOES insert an attachment row. -/
theorem save_existing_zero_attachments_inserts :
    (save_email_with_attachments ⟨[(1, "m1")], [], 2, 1⟩ "m1" [⟨0, "a.pdf"⟩]).1.attachments ≠
      ([] : List (Nat × AttachmentModel)) := by
  decide

/-- C5 amended: `save_email_with_attachments` is idempotent on the message
row — when a row with the same `message_id` exists it returns that row's
id and never inserts a message row.  It also inserts no attachment rows
when the existing row already has at least one attachment; but when the
existing row has zero attachments and new attachments are provided, the
provided attachments ARE inserted (backfilled) under the existing row's
id. -/
theorem save_email_with_attachments_idempotent (db : DBState) (row : Nat × String)
    (message_id : String) (atts : List AttachmentModel)
    (hrow : db.emails.find? (fun p => p.2 = message_id) = Option.some row) :
    (save_email_with_attachments db message_id atts).2.1 = row.1 ∧
    (save_email_with_attachments db message_id atts).1.emails = db.emails ∧
    ((db.attachments.filter (fun p => p.2.email_id = row.1)).length > 0 →
      save_email_with_attachments db message_id atts = (db, row.1, [])) ∧
    ((db.attachments.filter (fun p => p.2.email_id = row.1)).length = 0 →
      (save_email_with_attachments db message_id atts).1.attachments.length =
        db.attachments.length + atts.length) := by
  have htab := insert_attachments_tables atts db row.1
  refine ⟨?_, ?_, ?_, ?_⟩
  · by_cases hcnt : (db.attachments.filter (fun p => p.2.email_id = row.1)).length > 0 <;>
      simp [save_email_with_attachments, hrow, hcnt]
  · by_cases hcnt : (db.attachments.filter (fun p => p.2.email_id = row.1)).length > 0 <;>
      simp [save_email_with_attachments, hrow, hcnt, htab.1]
  · intro hcnt
    simp [save_email_with_attachments, hrow, hcnt]
  · intro hcnt
    have hng : ¬((db.attachments.filter (fun p => p.2.email_id = row.1)).length > 0) := by
      omega
    simp [save_email_with_attachments, hrow, hng, htab.2]

/-- C5 witness: on a database holding message `"m2"` as row `7` with one
existing attachment, saving `"m2"` again with a fresh attachment returns
id `7` and changes nothing. -/
theorem save_email_with_attachments_idempotent_witness :
    save_email_with_attachments
        ⟨[(7, "m2")], [(3, ⟨7, "old.pdf"⟩)], 8, 4⟩ "m2" [⟨0, "new.pdf"⟩] =
      (⟨[(7, "m2")], [(3, ⟨7, "old.pdf"⟩)], 8, 4⟩, 7, []) := by
  have h := save_email_with_attachments_idempotent
    ⟨[(7, "m2")], [(3, ⟨7, "old.pdf"⟩)], 8, 4⟩ (7, "m2") "m2" [⟨0, "new.pdf"⟩]
    (by decide)
  exact h.2.2.1 (by decide)

/-! ### Ingestion pipeline (`email_sync.py`)

`_process_single_email` is embedded as a function of a per-uid scenario
that records what each external step would do: every fallible step either
raises or returns a value.  An exception escaping `_process_single_email`
is caught by the per-uid handler in `sync_emails`, which adds one to the
`errors` counter, so the outcome below already includes that accounting.
The uid enters the loop with the upstream flag set (it was found by the
`FLAGGED` search); the outcome records the final flag state. -/

/-- Outcome of one fallible external step: the call raises, or returns. -/
inductive StepResult (α : Type) where
  | raises
  | returns (a : α)

/-- The per-run counters of `EmailSyncStats` (`email_models.py`). -/
structure EmailSyncStats where
  total_processed : Nat
  new_emails : Nat
  duplicates_skipped : Nat
  rule_skipped : Nat
  errors : Nat
deriving DecidableEq, Repr

/-- One uid's external scenario: the raw fetch (`returns false` models a
falsy `raw_email`), the parse, the dedup lookup, the active-rule load, the
extractor registry and regex engine used by the rule engine, the
rfq post-processing step, and the transactional save. -/
structure UidWorld where
  fetch_raw : StepResult Bool
  parse : StepResult EmailData
  check_exists : StepResult Bool
  load_rules : StepResult (List EmailRule)
  extract : FieldExtractor
  re : RegexModel
  extra_process : StepResult Unit
  save : StepResult Nat

/-- What one uid's processing leaves behind: the per-uid counter deltas
(including the caller's `errors += 1` on an escaped exception), the final
state of the upstream processed flag (it starts set) and whether the
repository commit for this message succeeded. -/
structure UidOutcome where
  stats : EmailSyncStats
  upstream_flag_set : Bool
  committed : Bool
deriving DecidableEq, Repr

/-- Modelled from the spec: `EmailReader.mark_as_unflagged`, called by
`_process_single_email` after a rule skip and after a successful save, is
not defined under `src/` (the `EmailReader` in `src/` lacks the method);
per the spec the mailbox client clears the single per-message processed
flag (`set_processed_flag(uid, False)`), affecting nothing else. -/
def mark_as_unflagged (_flag_set : Bool) : Bool := false

/-- `if not message_id` on `parsed_email.get('message_id')`. -/
def message_id_truthy (d : EmailData) : Bool :=
  match EmailData.get d "message_id" with
  | Option.none => false
  | Option.some v => v.truthy

/-- The outcome of a uid whose processing raised: the escaped exception is
caught by the loop in `sync_emails`, which counts one error; the flag
stays set and nothing was committed. -/
def uid_error_outcome : UidOutcome :=
  ⟨⟨1, 0, 0, 0, 1⟩, true, false⟩

/-- `EmailSyncService._process_single_email` (plus the enclosing per-uid
exception handler of `sync_emails`): bump `total_processed`; return
silently on falsy raw bytes or falsy `message_id`; count a duplicate
without touching the flag; on a rule skip clear the flag and count
`rule_skipped` without persisting; otherwise run the rfq post-processing
and the transactional save, and only after a successful save clear the
flag and count `new_emails`.  Any raising step yields
`uid_error_outcome`. -/
def process_single_email (w : UidWorld) : UidOutcome :=
  match w.fetch_raw with
  | .raises => uid_error_outcome
  | .returns false => ⟨⟨1, 0, 0, 0, 0⟩, true, false⟩
  | .returns true =>
    match w.parse with
    | .raises => uid_error_outcome
    | .returns d =>
      if message_id_truthy d = false then ⟨⟨1, 0, 0, 0, 0⟩, true, false⟩
      else
        match w.check_exists with
        | .raises => uid_error_outcome
        | .returns true => ⟨⟨1, 0, 1, 0, 0⟩, true, false⟩
        | .returns false =>
          let rr :=
            match w.load_rules with
            | .raises => (⟨false, [], ["rule loading failed"]⟩ : RuleResult)
            | .returns rules => (apply_rules w.extract w.re rules d).1
          if rr.should_skip then
            ⟨⟨1, 0, 0, 1, 0⟩, mark_as_unflagged true, false⟩
          else
            match w.extra_process with
            | .raises => uid_error_outcome
            | .returns _ =>
              match w.save with
              | .raises => uid_error_outcome
              | .returns _ => ⟨⟨1, 1, 0, 0, 0⟩, mark_as_unflagged true, true⟩

/-- Componentwise accumulation of per-uid deltas into the run's stats. -/
def add_stats (s t : EmailSyncStats) : EmailSyncStats :=
  ⟨s.total_processed + t.total_processed, s.new_emails + t.new_emails,
    s.duplicates_skipped + t.duplicates_skipped, s.rule_skipped + t.rule_skipped,
    s.errors + t.errors⟩

/-- The statistics of one ingestion run over the uids returned by the
search: the per-uid loop of `sync_emails` accumulates each uid's deltas
into the run's `EmailSyncStats`. -/
def sync_emails_stats : List UidWorld → EmailSyncStats
  | [] => ⟨0, 0, 0, 0, 0⟩
  | w :: ws => add_stats (process_single_email w).stats (sync_emails_stats ws)

/-- The two silent early returns of `_process_single_email`: falsy raw
bytes, or a parsed message with a falsy `message_id`.  These uids bump
`total_processed` and nothing else. -/
def uid_silently_ignored (w : UidWorld) : Bool :=
  match w.fetch_raw with
  | .raises => false
  | .returns false => true
  | .returns true =>
    match w.parse with
    | .raises => false
    | .returns d => !(message_id_truthy d)

lemma process_single_email_stats_identity (w : UidWorld) :
    (process_single_email w).stats.total_processed =
      (process_single_email w).stats.new_emails +
      (process_single_email w).stats.duplicates_skipped +
      (process_single_email w).stats.rule_skipped +
      (process_single_email w).stats.errors +
      (if uid_silently_ignored w then 1 else 0) := by
  rcases w with ⟨fr, pa, ce, lr, ext, re, ep, sv⟩
  cases fr with
  | raises => rfl
  | returns b =>
    cases b with
    | false => rfl
    | true =>
      cases pa with
      | raises => rfl
      | returns d =>
        by_cases hm : message_id_truthy d = false
        · simp [process_single_email, uid_silently_ignored, hm, uid_error_outcome]
        · have hm' : message_id_truthy d = true := by
            revert hm; cases message_id_truthy d <;> simp
          cases ce with
          | raises => simp [process_single_email, uid_silently_ignored, hm', uid_error_outcome]
          | returns ex =>
            cases ex with
            | true => simp [process_single_email, uid_silently_ignored, hm']
            | false =>
              by_cases hskip : (match lr with
                | .raises => (⟨false, [], ["rule loading failed"]⟩ : RuleResult)
                | .returns rules => (apply_rules ext re rules d).1).should_skip = true
              · simp [process_single_email, uid_silently_ignored, hm', hskip,
                  mark_as_unflagged]
              · cases ep with
                | raises =>
                  simp [process_single_email, uid_silently_ignored, hm', hskip,
                    uid_error_outcome]
                | returns u =>
                  cases sv with
                  | raises =>
                    simp [process_single_email, uid_silently_ignored, hm', hskip,
                      uid_error_outcome]
                  | returns n =>
                    simp [process_single_email, uid_silently_ignored, hm', hskip,
                      mark_as_unflagged]

/-- C6 counterexample: a run over a single uid whose raw bytes cannot be
fetched (`raw_email` falsy) has `total_processed = 1` but all four outcome
counters zero, so the claimed identity fails. -/
theorem sync_stats_identity_counterexample :
    (sync_emails_stats [⟨.returns false, .raises, .raises, .raises,
        sample_extract, rejecting_re, .raises, .raises⟩]).total_processed ≠
      (sync_emails_stats [⟨.returns false, .raises, .raises, .raises,
          sample_extract, rejecting_re, .raises, .raises⟩]).new_emails +
      (sync_emails_stats [⟨.returns false, .raises, .raises, .raises,
          sample_extract, rejecting_re, .raises, .raises⟩]).duplicates_skipped +
      (sync_emails_stats [⟨.returns false, .raises, .raises, .raises,
          sample_extract, rejecting_re, .raises, .raises⟩]).rule_skipped +
      (sync_emails_stats [⟨.returns false, .raises, .raises, .raises,
          sample_extract, rejecting_re, .raises, .raises⟩]).errors := by
  decide

/-- C6 amended: after every ingestion run,
`total_processed = new_emails + duplicates_skipped + rule_skipped + errors
+ k`, where `k` counts the uids that return silently — those whose raw
bytes cannot be fetched or whose canonical record lacks a truthy
`message_id`; for runs without such uids the claimed identity holds as
stated. -/
theorem sync_stats_identity (ws : List UidWorld) :
    (sync_emails_stats ws).total_processed =
      (sync_emails_stats ws).new_emails +
      (sync_emails_stats ws).duplicates_skipped +
      (sync_emails_stats ws).rule_skipped +
      (sync_emails_stats ws).errors +
      (ws.countP (fun w => uid_silently_ignored w)) := by
  induction ws with
  | nil => rfl
  | cons w ws ih =>
    have hw := process_single_email_stats_identity w
    cases hig : uid_silently_ignored w with
    | true =>
      rw [hig] at hw
      simp only [if_true] at hw
      simp only [sync_emails_stats, add_stats, List.countP_cons, hig, if_true]
      omega
    | false =>
      rw [hig] at hw
      simp only [Bool.false_eq_true, if_false] at hw
      simp only [sync_emails_stats, add_stats, List.countP_cons, hig, Bool.false_eq_true,
        if_false]
      omega

/-- An always-matching active rule whose single action is `skip`. -/
def rule_skip_all : EmailRule :=
  ⟨1, "SkipAll", 10, false, .AND, [], [⟨1, .skip, Option.none⟩]⟩

/-- A uid scenario that reaches the rule engine and gets skipped by
`rule_skip_all`; the save step would succeed but is never reached. -/
def world_rule_skip : UidWorld :=
  ⟨.returns true, .returns [("message_id", PyValue.str "m1")], .returns false,
    .returns [rule_skip_all], sample_extract, rejecting_re, .returns Unit.unit,
    .returns 1⟩

/-- C1 counterexample: on a uid skipped by an active skip rule the
upstream flag is cleared although no repository commit happened, so the
flag does NOT clear only-if the commit succeeds. -/
theorem flag_cleared_without_commit_on_rule_skip :
    (process_single_email world_rule_skip).upstream_flag_set = false ∧
    (process_single_email world_rule_skip).committed = false := by
  constructor
  · decide
  · decide

/-- C1 amended: for every processed uid the upstream processed flag is
cleared if and only if the repository commit for that message succeeds OR
the rule engine decides to skip the message; on every other path —
unfetchable raw bytes, parse failure, missing `message_id`, duplicate,
post-processing failure, a failed save — the flag remains set.  (The flag
clearing is spec-modelled: `mark_as_unflagged` is absent from `src/`.) -/
theorem flag_cleared_iff_commit_or_rule_skip (w : UidWorld) :
    (process_single_email w).upstream_flag_set = false ↔
      ((process_single_email w).committed = true ∨
        (process_single_email w).stats.rule_skipped = 1) := by
  rcases w with ⟨fr, pa, ce, lr, ext, re, ep, sv⟩
  cases fr with
  | raises => simp [process_single_email, uid_error_outcome]
  | returns b =>
    cases b with
    | false => simp [process_single_email]
    | true =>
      cases pa with
      | raises => simp [process_single_email, uid_error_outcome]
      | returns d =>
        by_cases hm : message_id_truthy d = false
        · simp [process_single_email, hm]
        · have hm' : message_id_truthy d = true := by
            revert hm; cases message_id_truthy d <;> simp
          cases ce with
          | raises => simp [process_single_email, hm', uid_error_outcome]
          | returns ex =>
            cases ex with
            | true => simp [process_single_email, hm']
            | false =>
              by_cases hskip : (match lr with
                | .raises => (⟨false, [], ["rule loading failed"]⟩ : RuleResult)
                | .returns rules => (apply_rules ext re rules d).1).should_skip = true
              · simp [process_single_email, hm', hskip, mark_as_unflagged]
              · cases ep with
                | raises => simp [process_single_email, hm', hskip, uid_error_outcome]
                | returns u =>
                  cases sv with
                  | raises => simp [process_single_email, hm', hskip, uid_error_outcome]
                  | returns n =>
                    simp [process_single_email, hm', hskip, mark_as_unflagged]

/-- A uid scenario whose message is already in the repository; the later
steps are never reached. -/
def world_duplicate : UidWorld :=
  ⟨.returns true, .returns [("message_id", PyValue.str "m1")], .returns true,
    .raises, sample_extract, rejecting_re, .raises, .raises⟩

/-- C4 counterexample: on a duplicate the code increments
`duplicates_skipped` but does NOT clear the upstream flag — there is no
`mark_as_unflagged` call on the duplicate path of
`_process_single_email`. -/
theorem duplicate_leaves_flag_set :
    (process_single_email world_duplicate).stats.duplicates_skipped = 1 ∧
    (process_single_email world_duplicate).upstream_flag_set = true := by
  constructor
  · decide
  · decide

/-- C4 amended: for every uid whose canonicalized message has a truthy
`message_id` that already exists in the repository, the pipeline
increments `duplicates_skipped`, leaves the upstream processed flag SET,
and inserts no rows (nothing is committed and `new_emails` stays zero). -/
theorem duplicate_increments_counter_no_insert (w : UidWorld) (d : EmailData)
    (hf : w.fetch_raw = .returns true) (hp : w.parse = .returns d)
    (hm : message_id_truthy d = true) (he : w.check_exists = .returns true) :
    process_single_email w = ⟨⟨1, 0, 1, 0, 0⟩, true, false⟩ := by
  rcases w with ⟨fr, pa, ce, lr, ext, re, ep, sv⟩
  simp only at hf hp he
  subst hf hp he
  simp [process_single_email, hm]

/-- C4 witness: the amended theorem applied to a concrete duplicate
scenario. -/
theorem duplicate_increments_counter_no_insert_witness :
    process_single_email
      ⟨.returns true, .returns [("message_id", PyValue.str "m9")], .returns true,
        .raises, sample_extract, rejecting_re, .raises, .raises⟩ =
      ⟨⟨1, 0, 1, 0, 0⟩, true, false⟩ := by
  exact duplicate_increments_counter_no_insert
    ⟨.returns true, .returns [("message_id", PyValue.str "m9")], .returns true,
      .raises, sample_extract, rejecting_re, .raises, .raises⟩
    [("message_id", PyValue.str "m9")] rfl rfl (by decide) rfl

end ShipSailMail
